import Mathlib

/-!
Shallow embedding of the prompt-relay server of this repository
(src/unnamed/part_002, a Fastify server streaming Amazon Bedrock
responses), together with proofs about its request normalization,
error handling, metadata defaults, conversation recording and the
history endpoint.

Conventions of the embedding:
* JavaScript strings become `String`; optional request fields become
  `Option`; JavaScript truthiness of an optional string field is the
  predicate `truthy` (absent or empty is falsy).
* The handlers are embedded as pure functions from the request data,
  the environment and the impure inputs (current timestamp, generated
  session id, the JSON parse oracle, the file system) to an `Outcome`
  describing the observable response.
* External services (the Bedrock stream, `JSON.parse`, `fs`) are not
  code of this repository; they enter as parameters or as small models
  whose doc comments say exactly what is assumed.
-/

namespace VercelDemo

/-- Message role, per the `role: 'user' | 'assistant' | 'system'` union
used throughout src/unnamed/part_002. -/
inductive Role where
  | system
  | user
  | assistant
deriving DecidableEq, Repr

/-- One chat message `{ role, content }`. -/
structure ChatMessage where
  role : Role
  content : String
deriving DecidableEq, Repr

/-- Reference document `{ title, url, content? }` (interface
`ReferenceDoc`, src/unnamed/part_002 lines 49-53). -/
structure ReferenceDoc where
  title : String
  url : String
  content : Option String
deriving DecidableEq, Repr

/-- JavaScript truthiness of an optional string: `undefined` and the
empty string are falsy. -/
def truthy : Option String → Bool
  | some s => s != ""
  | none => false

/-- Fixed instruction text of `generateSystemPrompt`
(src/unnamed/part_002 lines 62-63). -/
def basePrompt : String :=
  "あなたは優秀なAIアシスタントです。ユーザーの質問に対して、正確で役立つ回答を提供してください。\n回答は簡潔かつ分かりやすく、必要に応じて例を含めてください。"

/-- Header appended when the reference list is non-empty (line 67). -/
def referencesHeader : String :=
  "\n\n以下の参照ドキュメントを使用して回答を作成してください：\n"

/-- Trailer appended when the reference list is non-empty (line 76). -/
def referencesFooter : String :=
  "\n参照ドキュメントの情報を活用し、適切な場合は引用元を明示してください。"

/-- The one-line citation `[i+1] title (url)` of one document
(line 70, without the leading newline of the template literal). -/
def citationLine (index : Nat) (doc : ReferenceDoc) : String :=
  "[" ++ toString (index + 1) ++ "] " ++ doc.title ++ " (" ++ doc.url ++ ")"

/-- The content continuation `内容: ...` of one document (line 72,
without its surrounding newlines). -/
def contentLine (c : String) : String :=
  "内容: " ++ c

/-- Everything one iteration of the `references.forEach` loop appends
to the prompt (lines 69-74): a newline, the citation line, and — when
the document has content — a newline, the content line and a trailing
newline. -/
def citationBlock (index : Nat) (doc : ReferenceDoc) : String :=
  "\n" ++ citationLine index doc ++
    match doc.content with
    | some c => "\n" ++ contentLine c ++ "\n"
    | none => ""

/-- The `forEach` accumulation over the reference list: `acc` is the
mutable `systemPrompt` variable, `index` the loop index. -/
def appendCitations : Nat → List ReferenceDoc → String → String
  | _, [], acc => acc
  | index, doc :: docs, acc =>
      appendCitations (index + 1) docs (acc ++ citationBlock index doc)

/-- `generateSystemPrompt` (src/unnamed/part_002 lines 60-80): the base
instruction, and when references are present the header, one citation
block per document in order, and the trailer. -/
def generateSystemPrompt (references : List ReferenceDoc) : String :=
  if references.length > 0 then
    appendCitations 0 references (basePrompt ++ referencesHeader) ++ referencesFooter
  else
    basePrompt

/-- Right-nested form of the `forEach` accumulation, used by the
analysis below; `appendCitations` is proved equal to it. -/
def citations : Nat → List ReferenceDoc → String
  | _, [] => ""
  | index, doc :: docs => citationBlock index doc ++ citations (index + 1) docs

/-- `addSystemPromptToMessages` (src/unnamed/part_002 lines 88-106):
if some message already has the system role, every system-role entry is
replaced in place by the synthesized prompt; otherwise the synthesized
prompt is prepended. -/
def addSystemPromptToMessages (messages : List ChatMessage)
    (references : List ReferenceDoc) : List ChatMessage :=
  let systemPrompt := generateSystemPrompt references
  let hasSystemPrompt := messages.any fun msg => msg.role == Role.system
  if hasSystemPrompt then
    messages.map fun msg =>
      if msg.role == Role.system then ⟨Role.system, systemPrompt⟩ else msg
  else
    ⟨Role.system, systemPrompt⟩ :: messages

/-- The process environment variables consulted by the handlers. -/
structure Env where
  awsAccessKeyId : Option String
  awsSecretAccessKey : Option String
deriving DecidableEq, Repr

/-- Negation of the guard `!process.env.AWS_ACCESS_KEY_ID ||
!process.env.AWS_SECRET_ACCESS_KEY` (lines 214 and 447). -/
def credsPresent (env : Env) : Bool :=
  truthy env.awsAccessKeyId && truthy env.awsSecretAccessKey

/-- The fallback reference list hard-coded in both `customData`
literals (lines 253-256 and 470-474). -/
def defaultReferences : List ReferenceDoc :=
  [⟨"AWS Bedrock Documentation", "https://docs.aws.amazon.com/bedrock/", none⟩,
   ⟨"Claude API Reference", "https://docs.anthropic.com/claude/reference/", none⟩,
   ⟨"Fastify Documentation", "https://www.fastify.io/docs/latest/", none⟩]

/-- The per-reference projection `ref => ({title, url, ...(ref.content ?
{content} : {})})` (lines 257-261 and 466-469): title and url are kept,
the content field is kept only when present and non-empty (JavaScript
truthiness drops an empty string). -/
def normalizeRef (ref : ReferenceDoc) : ReferenceDoc :=
  { title := ref.title
    url := ref.url
    content :=
      match ref.content with
      | some c => if c != "" then some c else none
      | none => none }

/-- The constant `source` field of both `customData` literals. -/
def sourceName : String :=
  "Vercel AI SDK Demo with AWS Bedrock"

/-- Body of a POST `/api/streaming-data` request (lines 156-160). -/
structure PostBody where
  prompt : Option String
  messages : Option (List ChatMessage)
  references : Option (List ReferenceDoc)
deriving DecidableEq, Repr

/-- Negation of the POST input-validation guard `!prompt && (!messages
|| messages.length === 0)` (line 163): the request carries a truthy
prompt, or a supplied non-empty message list. -/
def postRequestValid (body : PostBody) : Bool :=
  truthy body.prompt || ((body.messages).isSome && !((body.messages).getD []).isEmpty)

/-- Query of a GET `/api/streaming-data` request (line 392); the
reference list arrives as a JSON string. -/
structure GetQuery where
  prompt : Option String
  references : Option String
deriving DecidableEq, Repr

/-- The `customData` metadata object sent as the first data event and
reused by the conversation recorder (lines 247-262 and 460-475). -/
structure CustomData where
  timestamp : String
  source : String
  prompt : String
  model : String
  sessionId : String
  references : List ReferenceDoc
deriving DecidableEq, Repr

/-- Observable result of a submit-prompt handler.
`errorResponse status msg` models `reply.code(status).send({error: msg})`
taken before the Bedrock provider is created: no remote call is made and
no stream bytes are written. `stream meta messageArray sessionId` models
the streaming path: the metadata event `meta` is written first, the
normalized `messageArray` is what `streamText` submits to the remote
model, and `sessionId` names the conversation record. -/
inductive Outcome where
  | errorResponse (status : Nat) (errorMsg : String)
  | stream (meta : CustomData) (messageArray : List ChatMessage) (sessionId : String)
deriving DecidableEq, Repr

/-- The message list submitted to the model, when the outcome streams. -/
def Outcome.messageList : Outcome → Option (List ChatMessage)
  | .errorResponse _ _ => none
  | .stream _ msgs _ => some msgs

/-- The reference list carried by the metadata event, when the outcome
streams. -/
def Outcome.metaRefs : Outcome → Option (List ReferenceDoc)
  | .errorResponse _ _ => none
  | .stream meta _ _ => some meta.references

/-- Lines 169-171: the last message's content, or the prompt. -/
def postUserInput (body : PostBody) : String :=
  match body.messages with
  | some ms =>
      if ms.length > 0 then ((ms.getLast?).getD ⟨Role.user, ""⟩).content
      else (body.prompt).getD ""
  | none => (body.prompt).getD ""

/-- Lines 174-179: the message array is the supplied one (even when
empty), or a single user message built from the prompt; then the system
prompt is added with `references || []`. -/
def postMessageArray (body : PostBody) : List ChatMessage :=
  let messageArray : List ChatMessage :=
    match body.messages with
    | some ms => ms
    | none => [⟨Role.user, (body.prompt).getD ""⟩]
  addSystemPromptToMessages messageArray ((body.references).getD [])

/-- POST `/api/streaming-data` handler (src/unnamed/part_002 lines
153-382), as a function of the environment, the current ISO timestamp
`now`, the generated session id, and the request body. Order of checks
follows the source: input validation (line 163), then normalization
(lines 169-179), then the credential guard (line 214), then the
metadata literal (lines 247-262) and the streaming path. -/
def postStreamingData (env : Env) (now sessionId : String) (body : PostBody) : Outcome :=
  if !truthy body.prompt && ((body.messages).isNone || ((body.messages).getD []).isEmpty) then
    .errorResponse 400 "Prompt or messages is required"
  else
    let userInput := postUserInput body
    let messageArray := postMessageArray body
    if !credsPresent env then
      .errorResponse 500 "AWS credentials are not set"
    else
      let customData : CustomData :=
        { timestamp := now
          source := sourceName
          prompt := userInput
          model := "Claude 3.5 Sonnet"
          sessionId := sessionId
          references := ((body.references).getD defaultReferences).map normalizeRef }
      .stream customData messageArray sessionId

/-- GET `/api/streaming-data` handler (src/unnamed/part_002 lines
389-572). `parseRefs` is the `JSON.parse` oracle: `none` models a
parse exception, which the handler catches, leaving the reference list
empty (lines 403-409). Order of checks follows the source: prompt
validation (line 394), reference parsing, normalization, the credential
guard (line 447), then the metadata literal (lines 460-475). -/
def getStreamingData (env : Env) (now sessionId : String)
    (parseRefs : String → Option (List ReferenceDoc)) (query : GetQuery) : Outcome :=
  if !truthy query.prompt then
    .errorResponse 400 "Prompt is required"
  else
    let userPrompt := (query.prompt).getD ""
    let references : List ReferenceDoc :=
      match query.references with
      | some s => if s != "" then (parseRefs s).getD [] else []
      | none => []
    let messageArray := addSystemPromptToMessages [⟨Role.user, userPrompt⟩] references
    if !credsPresent env then
      .errorResponse 500 "AWS credentials are not set"
    else
      let customData : CustomData :=
        { timestamp := now
          source := sourceName
          prompt := userPrompt
          model := "Claude 3 Sonnet"
          sessionId := sessionId
          references :=
            if references.length > 0 then references.map normalizeRef
            else defaultReferences }
      .stream customData messageArray sessionId

/-- Model of the remote text stream of one request: the ordered list of
text deltas the Bedrock SDK produces. Concurrency plays no role — each
request owns its stream — so the arrival order is just this list. -/
structure StreamOutcome where
  deltas : List String
deriving DecidableEq, Repr

/-- Model of the SDK transport (`result.mergeIntoDataStream`, lines 339
and 529): each text delta is forwarded to the client as one content
increment, in arrival order, unchanged. -/
def deliveredIncrements (outcome : StreamOutcome) : List String :=
  outcome.deltas

/-- Model of the SDK completion callback argument (`onFinish ({response})`,
lines 288 and 491): `response.messages` holds one assistant message whose
content is the concatenation of all text deltas of the stream. -/
def responseMessages (outcome : StreamOutcome) : List ChatMessage :=
  [⟨Role.assistant, String.join outcome.deltas⟩]

/-- Lines 291-292: `response.messages.find(msg => msg.role ===
'assistant')`, with `''` as the fallback. -/
def assistantContent (msgs : List ChatMessage) : String :=
  match msgs.find? (fun msg => msg.role == Role.assistant) with
  | some msg => msg.content
  | none => ""

/-- The conversation record `{...customData, response, completedAt}`
written by the recorder (lines 295-299). -/
structure ConversationRecord where
  timestamp : String
  source : String
  prompt : String
  model : String
  sessionId : String
  references : List ReferenceDoc
  response : String
  completedAt : String
deriving DecidableEq, Repr

/-- Assembly of the conversation record inside `onFinish`
(lines 295-299). -/
def buildConversationRecord (meta : CustomData) (responseMsgs : List ChatMessage)
    (completedAt : String) : ConversationRecord :=
  { timestamp := meta.timestamp
    source := meta.source
    prompt := meta.prompt
    model := meta.model
    sessionId := meta.sessionId
    references := meta.references
    response := assistantContent responseMsgs
    completedAt := completedAt }

/-- Line 119: `new Date().toISOString().replace(/:/g, '-')`. -/
def colonToDash (s : String) : String :=
  ⟨s.data.map fun c => if c = ':' then '-' else c⟩

/-- Line 120: the log file name `{sessionId}_{timestamp}.json`. -/
def logFilename (sessionId isoNow : String) : String :=
  sessionId ++ "_" ++ colonToDash isoNow ++ ".json"

/-- `saveConversationToFile` (src/unnamed/part_002 lines 117-130).
`writeResult` is the file system's answer to `fs.writeFile`; an
exception (`Except.error`) is caught by the function's own
`try/catch`, which logs and returns `null` — modeled as `none`. On
success the joined file path is returned. -/
def saveConversationToFile (writeResult : Except String Unit)
    (logDir sessionId isoNow : String) : Option String :=
  match writeResult with
  | .ok _ => some (logDir ++ "/" ++ logFilename sessionId isoNow)
  | .error _ => none

/-- The observable effects of one completed exchange: the content
increments delivered to the client (already flushed before `onFinish`
runs), and the result of the fire-and-forget record write. The
`onFinish` callback (lines 288-307) wraps record assembly and save in
its own `try/catch`, so the write result can only show up in the second
component. -/
def completeExchange (writeResult : Except String Unit) (outcome : StreamOutcome)
    (logDir sessionId isoNow : String) : List String × Option String :=
  (deliveredIncrements outcome,
   saveConversationToFile writeResult logDir sessionId isoNow)

/-- Code-unit comparison of two character lists: the default JavaScript
`Array.prototype.sort` comparator on strings (filenames here are ASCII,
where UTF-16 code units and code points agree). -/
def jsLeChars : List Char → List Char → Bool
  | [], _ => true
  | _ :: _, [] => false
  | a :: as, b :: bs =>
      if a.toNat = b.toNat then jsLeChars as bs else decide (a.toNat < b.toNat)

/-- The JavaScript string order as a relation on `String`. -/
def jsLe (a b : String) : Prop :=
  jsLeChars a.data b.data = true

instance : DecidableRel jsLe := fun a b => by
  unfold jsLe
  infer_instance

/-- Line 591: `file.endsWith('.json')`. -/
def endsWithJson (s : String) : Bool :=
  List.isSuffixOf ".json".data s.data

/-- Lines 591-594: filter to `.json` files, sort ascending with the
default comparator, reverse, keep the first 10. Sorting by a total
order on strings has a unique result (equal strings are identical), so
`insertionSort` computes exactly what `Array.prototype.sort` does. -/
def recentJsonFiles (names : List String) : List String :=
  (((names.filter endsWithJson).insertionSort jsLe).reverse).take 10

/-- GET `/api/history` handler (src/unnamed/part_002 lines 588-608):
`names` is the directory listing, `read` the file system's contents,
`parse` the `JSON.parse` deserialization of a stored record. The
handler maps read-and-parse over the recent files in order. -/
def historyHandler (read : String → String) (parse : String → ConversationRecord)
    (names : List String) : List ConversationRecord :=
  (recentJsonFiles names).map fun f => parse (read f)

/-- Splitting a character list at newlines, keeping empty lines; the
line-level view of the synthesized system prompt. -/
def splitLines : List Char → List (List Char)
  | [] => [[]]
  | c :: cs =>
      if c = '\n' then [] :: splitLines cs
      else
        match splitLines cs with
        | l :: ls => (c :: l) :: ls
        | [] => [[c]]

/-- A line is a citation line when it starts with an opening square
bracket — the shape `[i] title (url)` produced by the loop, while the
instruction text, the content lines (`内容: ...`) and blank lines do
not start with one. -/
def startsWithBracket : List Char → Bool
  | c :: _ => c == '['
  | [] => false

/-- Characters of the citation line of document `doc` at 0-based
position `index`. -/
def citationLineChars (index : Nat) (doc : ReferenceDoc) : List Char :=
  (citationLine index doc).data

/-- Characters of the content continuation line. -/
def contentLineChars (c : String) : List Char :=
  (contentLine c).data

/-- A document none of whose text fields embeds a newline; the
line-level statements quantify over these. -/
def plainDoc (doc : ReferenceDoc) : Prop :=
  '\n' ∉ doc.title.data ∧ '\n' ∉ doc.url.data ∧
    ∀ c, doc.content = some c → '\n' ∉ c.data

/-- The lines the citation region contributes, when followed by a
newline: per document a blank line, the citation line, and — with
content — the content line plus an extra blank line from the block's
trailing newline. -/
def citLines : Nat → List ReferenceDoc → List (List Char)
  | _, [] => [[]]
  | index, doc :: docs =>
      match doc.content with
      | none => [] :: citationLineChars index doc :: (citLines (index + 1) docs).tail
      | some c =>
          [] :: citationLineChars index doc :: contentLineChars c ::
            citLines (index + 1) docs

/-- First line of the base instruction. -/
def baseLine1 : List Char :=
  "あなたは優秀なAIアシスタントです。ユーザーの質問に対して、正確で役立つ回答を提供してください。".data

/-- Second line of the base instruction. -/
def baseLine2 : List Char :=
  "回答は簡潔かつ分かりやすく、必要に応じて例を含めてください。".data

/-- The header's own line. -/
def headerLineChars : List Char :=
  "以下の参照ドキュメントを使用して回答を作成してください：".data

/-- The trailer's own line. -/
def footerLineChars : List Char :=
  "参照ドキュメントの情報を活用し、適切な場合は引用元を明示してください。".data

/-- A concrete environment with both credentials set, for witnesses and
counterexamples. -/
def envWithCreds : Env :=
  ⟨some "AKIAEXAMPLE", some "SECRETEXAMPLE"⟩

/-- A concrete directory listing with twelve conversation log files and
one stray file, for the history witness. -/
def twelveLogFiles : List String :=
  ["session_03.json", "session_01.json", "session_07.json", "session_12.json",
   "session_05.json", "session_02.json", "session_09.json", "session_04.json",
   "session_11.json", "session_06.json", "session_10.json", "session_08.json",
   "readme.txt"]

/-! ## Small reduction lemmas -/

theorem user_beq_system : (Role.user == Role.system) = false := rfl

theorem assistant_beq_system : (Role.assistant == Role.system) = false := rfl

theorem system_beq_system : (Role.system == Role.system) = true := rfl

theorem truthy_some_of_ne (s : String) (h : s ≠ "") : truthy (some s) = true := by
  simp [truthy, h]

/-- A valid POST body never takes the 400 branch of line 163. -/
theorem validGuard (body : PostBody) (h : postRequestValid body = true) :
    (!truthy body.prompt &&
      ((body.messages).isNone || ((body.messages).getD []).isEmpty)) = false := by
  obtain ⟨p, ms, refs⟩ := body
  simp only [postRequestValid, Bool.or_eq_true, Bool.and_eq_true] at h
  rcases h with h | ⟨h1, h2⟩
  · simp [h]
  · cases ms with
    | none => simp at h1
    | some l =>
        have hne : l.isEmpty = false := by simpa using h2
        simp [hne]

/-- Adding the system prompt to a list with no system entry prepends the
synthesized message. -/
theorem addSystemPrompt_prepend (msgs : List ChatMessage) (refs : List ReferenceDoc)
    (h : msgs.any (fun msg => msg.role == Role.system) = false) :
    addSystemPromptToMessages msgs refs =
      ⟨Role.system, generateSystemPrompt refs⟩ :: msgs := by
  simp [addSystemPromptToMessages, h]

/-- The default reference list passes the metadata projection
unchanged. -/
theorem defaultReferences_normalize :
    defaultReferences.map normalizeRef = defaultReferences := by decide

/-! ## C1 — in-place replacement of an existing system message -/

/-- Claim C1 (amended): when the input list contains a system-role
entry, normalization keeps the length, replaces every system-role entry
in place by the synthesized system message — at its own position, which
is index 0 exactly when the input's system entry sits at index 0 — and
leaves every non-system message unchanged at its position. -/
theorem system_replacement_in_place (msgs : List ChatMessage) (refs : List ReferenceDoc)
    (h : msgs.any (fun msg => msg.role == Role.system) = true) :
    (addSystemPromptToMessages msgs refs).length = msgs.length ∧
    ∀ (i : Nat) (m : ChatMessage), msgs[i]? = some m →
      (addSystemPromptToMessages msgs refs)[i]? =
        some (if m.role = Role.system then ⟨Role.system, generateSystemPrompt refs⟩
              else m) := by
  have hmap : addSystemPromptToMessages msgs refs =
      msgs.map fun msg =>
        if msg.role == Role.system then ⟨Role.system, generateSystemPrompt refs⟩
        else msg := by
    simp [addSystemPromptToMessages, h]
  refine ⟨by simp [hmap], ?_⟩
  intro i m hm
  rw [hmap, List.getElem?_map, hm]
  by_cases hr : m.role = Role.system <;> simp [hr]

/-- Claim C1 witness: a list whose system entry sits at index 0 keeps
its length and gets the synthesized message at index 0, the user entry
at index 1 untouched. -/
theorem system_replacement_in_place_witness :
    (addSystemPromptToMessages [⟨Role.system, "old"⟩, ⟨Role.user, "q"⟩] []).length = 2 ∧
    (addSystemPromptToMessages [⟨Role.system, "old"⟩, ⟨Role.user, "q"⟩] [])[0]? =
      some ⟨Role.system, generateSystemPrompt []⟩ ∧
    (addSystemPromptToMessages [⟨Role.system, "old"⟩, ⟨Role.user, "q"⟩] [])[1]? =
      some ⟨Role.user, "q"⟩ := by
  have h := system_replacement_in_place [⟨Role.system, "old"⟩, ⟨Role.user, "q"⟩] []
    (by decide)
  refine ⟨h.1, ?_, ?_⟩
  · have := h.2 0 ⟨Role.system, "old"⟩ (by decide)
    simpa using this
  · have := h.2 1 ⟨Role.user, "q"⟩ (by decide)
    simpa using this

/-- Claim C1 counterexample: for an input whose (single) system entry
sits at index 1, the synthesized system message does not end up at
index 0 — it replaces the entry at index 1 — so the claim's "same
position, index 0" fails for this input list. -/
theorem system_replacement_not_at_index_zero :
    ([⟨Role.user, "a"⟩, ⟨Role.system, "b"⟩] : List ChatMessage).any
        (fun msg => msg.role == Role.system) = true ∧
    (addSystemPromptToMessages [⟨Role.user, "a"⟩, ⟨Role.system, "b"⟩] [])[0]? ≠
      some ⟨Role.system, generateSystemPrompt []⟩ ∧
    (addSystemPromptToMessages [⟨Role.user, "a"⟩, ⟨Role.system, "b"⟩] [])[1]? =
      some ⟨Role.system, generateSystemPrompt []⟩ := by
  refine ⟨by decide, ?_, by decide⟩
  intro hcontra
  have : (⟨Role.user, "a"⟩ : ChatMessage) = ⟨Role.system, generateSystemPrompt []⟩ := by
    have heval : (addSystemPromptToMessages [⟨Role.user, "a"⟩, ⟨Role.system, "b"⟩] [])[0]? =
        some ⟨Role.user, "a"⟩ := by decide
    rw [heval] at hcontra
    exact Option.some.inj hcontra
  exact Role.noConfusion (congrArg ChatMessage.role this)

/-! ## C2 — prompt-only requests -/

/-- Claim C2 (amended): a POST request whose message list is absent and
whose prompt is non-empty normalizes to exactly two messages — the
synthesized system message at index 0 and a user message carrying the
prompt at index 1 — and, with credentials present, that exact list is
what the handler streams to the model. (A supplied empty message list
behaves differently: see the counterexample.) -/
theorem prompt_only_two_messages (env : Env) (now sid p : String)
    (refs : Option (List ReferenceDoc)) (hp : p ≠ "") (hc : credsPresent env = true) :
    postMessageArray ⟨some p, none, refs⟩ =
      [⟨Role.system, generateSystemPrompt (refs.getD [])⟩, ⟨Role.user, p⟩] ∧
    (postStreamingData env now sid ⟨some p, none, refs⟩).messageList =
      some [⟨Role.system, generateSystemPrompt (refs.getD [])⟩, ⟨Role.user, p⟩] := by
  have harr : postMessageArray ⟨some p, none, refs⟩ =
      [⟨Role.system, generateSystemPrompt (refs.getD [])⟩, ⟨Role.user, p⟩] := by
    simp [postMessageArray, addSystemPrompt_prepend]
  refine ⟨harr, ?_⟩
  have hv : truthy (some p) = true := truthy_some_of_ne p hp
  simp [postStreamingData, hv, hc, harr, Outcome.messageList]

/-- Claim C2 witness: the concrete prompt-only request from the spec's
scenario, prompt `"hello"`. -/
theorem prompt_only_two_messages_witness :
    (postStreamingData envWithCreds "T" "S" ⟨some "hello", none, none⟩).messageList =
      some [⟨Role.system, generateSystemPrompt []⟩, ⟨Role.user, "hello"⟩] := by
  have h := (prompt_only_two_messages envWithCreds "T" "S" "hello" none
    (by decide) (by decide)).2
  simpa using h

/-- Claim C2 counterexample: a request carrying no prior messages in
the form of an explicitly supplied empty list (`messages: []`) and the
non-empty prompt `"hello"` normalizes to a single message — the
synthesized system message alone; no user message carries the prompt,
so the claimed two-message shape fails for this request. -/
theorem prompt_with_empty_list_one_message :
    (postStreamingData envWithCreds "T" "S" ⟨some "hello", some [], none⟩).messageList =
      some [⟨Role.system, generateSystemPrompt []⟩] ∧
    ((postStreamingData envWithCreds "T" "S" ⟨some "hello", some [], none⟩).messageList.map
      List.length) ≠ some 2 := by
  constructor
  · decide
  · intro hcontra
    have heval : ((postStreamingData envWithCreds "T" "S"
        ⟨some "hello", some [], none⟩).messageList.map List.length) = some 1 := by decide
    rw [heval] at hcontra
    simp at hcontra

/-! ## C4 — missing prompt and messages -/

/-- Claim C4: a submit-prompt request whose prompt is absent and whose
message list is absent or empty is rejected with HTTP 400 and a
descriptive error body, for every environment — the handler returns
before the credential guard, the provider construction and the stream,
so no remote call is made and no stream output is produced
(`Outcome.errorResponse` is reached before those steps). The GET form
with an absent prompt is likewise rejected with 400. -/
theorem missing_input_rejected_400 (env : Env) (now sid : String)
    (ms : Option (List ChatMessage)) (refs : Option (List ReferenceDoc))
    (parseRefs : String → Option (List ReferenceDoc)) (qrefs : Option String)
    (hm : ms = none ∨ ms = some []) :
    postStreamingData env now sid ⟨none, ms, refs⟩ =
      .errorResponse 400 "Prompt or messages is required" ∧
    getStreamingData env now sid parseRefs ⟨none, qrefs⟩ =
      .errorResponse 400 "Prompt is required" := by
  constructor
  · rcases hm with h | h <;> subst h <;> simp [postStreamingData, truthy]
  · simp [getStreamingData, truthy]

/-- Claim C4 witness: the fully absent request against an environment
that does have credentials still gets the 400, showing the validation
error takes precedence and no streaming outcome is produced. -/
theorem missing_input_rejected_400_witness :
    postStreamingData envWithCreds "T" "S" ⟨none, none, none⟩ =
      .errorResponse 400 "Prompt or messages is required" ∧
    getStreamingData envWithCreds "T" "S" (fun _ => none) ⟨none, none⟩ =
      .errorResponse 400 "Prompt is required" :=
  missing_input_rejected_400 envWithCreds "T" "S" none none (fun _ => none) none
    (Or.inl rfl)

/-! ## C5 — missing credentials -/

/-- Claim C5: a submit-prompt request (POST or GET form) that passes
input validation, made while either AWS credential is unset (or empty)
in the environment, is answered with status 500 and a body carrying the
error field `AWS credentials are not set`. The guard is a synchronous
check of the environment performed before the Bedrock provider is
created, so no network call is attempted and no stream bytes are
written (`Outcome.errorResponse` precedes both). -/
theorem creds_missing_500 (env : Env) (now sid : String) (body : PostBody)
    (parseRefs : String → Option (List ReferenceDoc)) (query : GetQuery)
    (henv : credsPresent env = false) (hbody : postRequestValid body = true)
    (hq : truthy query.prompt = true) :
    postStreamingData env now sid body =
      .errorResponse 500 "AWS credentials are not set" ∧
    getStreamingData env now sid parseRefs query =
      .errorResponse 500 "AWS credentials are not set" := by
  constructor
  · simp [postStreamingData, validGuard body hbody, henv]
  · simp [getStreamingData, hq, henv]

/-- Claim C5 witness: a valid prompt-only POST and a valid GET against
an environment with no credentials both get the 500. -/
theorem creds_missing_500_witness :
    postStreamingData ⟨none, none⟩ "T" "S" ⟨some "hi", none, none⟩ =
      .errorResponse 500 "AWS credentials are not set" ∧
    getStreamingData ⟨none, none⟩ "T" "S" (fun _ => none) ⟨some "hi", none⟩ =
      .errorResponse 500 "AWS credentials are not set" :=
  creds_missing_500 ⟨none, none⟩ "T" "S" ⟨some "hi", none, none⟩ (fun _ => none)
    ⟨some "hi", none⟩ (by decide) (by decide) (by decide)

/-! ## C6 — malformed reference JSON on the GET form -/

/-- Claim C6: when the GET form's references query parameter is present
(non-empty) but `JSON.parse` fails on it, the request behaves exactly
as if no references had been supplied — the parse failure is caught and
the reference list falls back to empty — and with credentials present
the handler proceeds to stream with the plain system prompt and the
default metadata references instead of failing with an error
response. -/
theorem malformed_references_tolerated (env : Env) (now sid p s : String)
    (parseRefs : String → Option (List ReferenceDoc))
    (hp : p ≠ "") (hs : s ≠ "") (hparse : parseRefs s = none) :
    getStreamingData env now sid parseRefs ⟨some p, some s⟩ =
      getStreamingData env now sid parseRefs ⟨some p, none⟩ ∧
    (credsPresent env = true →
      getStreamingData env now sid parseRefs ⟨some p, some s⟩ =
        .stream ⟨now, sourceName, p, "Claude 3 Sonnet", sid, defaultReferences⟩
          [⟨Role.system, generateSystemPrompt []⟩, ⟨Role.user, p⟩] sid) := by
  have hv : truthy (some p) = true := truthy_some_of_ne p hp
  constructor
  · simp [getStreamingData, hv, hs, hparse]
  · intro hc
    simp [getStreamingData, hv, hs, hparse, hc, addSystemPrompt_prepend]

/-- Claim C6 witness: a concrete malformed-JSON request streams with
the empty reference list (hence the default metadata references). -/
theorem malformed_references_tolerated_witness :
    getStreamingData envWithCreds "T" "S" (fun _ => none) ⟨some "hi", some "not json"⟩ =
      .stream ⟨"T", sourceName, "hi", "Claude 3 Sonnet", "S", defaultReferences⟩
        [⟨Role.system, generateSystemPrompt []⟩, ⟨Role.user, "hi"⟩] "S" :=
  (malformed_references_tolerated envWithCreds "T" "S" "hi" "not json" (fun _ => none)
    (by decide) (by decide) rfl).2 (by decide)

/-! ## C8 — stream/record round trip -/

/-- Claim C8: for a remote stream that completes successfully,
concatenating the content increments delivered to the client, in
delivery order, yields exactly the text stored in the conversation
record's response field by the `onFinish` recorder. -/
theorem increments_roundtrip_record (outcome : StreamOutcome) (meta : CustomData)
    (completedAt : String) :
    String.join (deliveredIncrements outcome) =
      (buildConversationRecord meta (responseMessages outcome) completedAt).response := by
  simp [deliveredIncrements, responseMessages, buildConversationRecord,
    assistantContent, List.find?]

/-! ## C9 — persistence failures are contained -/

/-- Claim C9: a failing record write makes `saveConversationToFile`
return `null` (modeled `none`) instead of propagating the error, a
successful one returns the file path; and the client-visible increments
of a completed exchange are the same whatever the write result is — the
fire-and-forget save can only affect the second component of the
exchange's effects. -/
theorem persistence_failure_contained (errMsg logDir sid isoNow : String)
    (w₁ w₂ : Except String Unit) (outcome : StreamOutcome) :
    saveConversationToFile (.error errMsg) logDir sid isoNow = none ∧
    saveConversationToFile (.ok ()) logDir sid isoNow =
      some (logDir ++ "/" ++ logFilename sid isoNow) ∧
    (completeExchange w₁ outcome logDir sid isoNow).1 =
      (completeExchange w₂ outcome logDir sid isoNow).1 := by
  refine ⟨rfl, rfl, rfl⟩

/-! ## C10 — default metadata references -/

/-- Claim C10 (amended): a POST body with no references field and a GET
request whose reference list is absent, unparseable or parsed empty all
carry the fixed default three-document list in the metadata event; a
POST body with a supplied reference list — even an empty one — has that
list carried instead, passed through the projection keeping title and
url and dropping an empty content field, as is a GET-supplied non-empty
list; and the stored conversation record carries exactly the metadata's
reference list. Documents with no empty content field pass the
projection verbatim. -/
theorem metadata_reference_defaults (env : Env) (now sid p s : String)
    (rs : List ReferenceDoc) (parseRefs : String → Option (List ReferenceDoc))
    (hp : p ≠ "") (hc : credsPresent env = true) :
    (postStreamingData env now sid ⟨some p, none, none⟩).metaRefs =
      some defaultReferences ∧
    (postStreamingData env now sid ⟨some p, none, some rs⟩).metaRefs =
      some (rs.map normalizeRef) ∧
    (getStreamingData env now sid parseRefs ⟨some p, none⟩).metaRefs =
      some defaultReferences ∧
    (parseRefs s = some [] → s ≠ "" →
      (getStreamingData env now sid parseRefs ⟨some p, some s⟩).metaRefs =
        some defaultReferences) ∧
    (∀ rs2, parseRefs s = some rs2 → rs2 ≠ [] → s ≠ "" →
      (getStreamingData env now sid parseRefs ⟨some p, some s⟩).metaRefs =
        some (rs2.map normalizeRef)) ∧
    (∀ meta msgs completedAt,
      (buildConversationRecord meta msgs completedAt).references = meta.references) ∧
    (∀ r : ReferenceDoc, r.content ≠ some "" → normalizeRef r = r) := by
  have hv : truthy (some p) = true := truthy_some_of_ne p hp
  refine ⟨?_, ?_, ?_, ?_, ?_, ?_, ?_⟩
  · simp [postStreamingData, hv, hc, Outcome.metaRefs, defaultReferences_normalize]
  · simp [postStreamingData, hv, hc, Outcome.metaRefs]
  · simp [getStreamingData, hv, hc, Outcome.metaRefs]
  · intro hparse hs
    simp [getStreamingData, hv, hc, hs, hparse, Outcome.metaRefs]
  · intro rs2 hparse hne hs
    have hlen : 0 < rs2.length := List.length_pos.mpr hne
    simp [getStreamingData, hv, hc, hs, hparse, Outcome.metaRefs, hlen]
  · intro meta msgs completedAt
    rfl
  · intro r hr
    obtain ⟨t, u, c⟩ := r
    cases c with
    | none => rfl
    | some cv =>
        have : cv ≠ "" := fun hcv => hr (by rw [hcv])
        simp [normalizeRef, this]

/-- Claim C10 witness: a POST with no references field carries the
default three documents. -/
theorem metadata_reference_defaults_witness :
    (postStreamingData envWithCreds "T" "S" ⟨some "hi", none, none⟩).metaRefs =
      some defaultReferences :=
  (metadata_reference_defaults envWithCreds "T" "S" "hi" "x" [] (fun _ => none)
    (by decide) (by decide)).1

/-- Claim C10 counterexample: a POST body with an explicitly supplied
empty reference list carries the empty list, not the default three
(`[] || d` is `[]` only when the field is absent — an empty array is
truthy in JavaScript); and a supplied document whose content field is
the empty string is not echoed verbatim — the projection drops its
content field. -/
theorem metadata_reference_defaults_counterexample :
    (postStreamingData envWithCreds "T" "S" ⟨some "hi", none, some []⟩).metaRefs =
      some [] ∧
    some ([] : List ReferenceDoc) ≠ some defaultReferences ∧
    (postStreamingData envWithCreds "T" "S"
        ⟨some "hi", none, some [⟨"t", "u", some ""⟩]⟩).metaRefs =
      some [⟨"t", "u", none⟩] ∧
    (⟨"t", "u", none⟩ : ReferenceDoc) ≠ ⟨"t", "u", some ""⟩ := by
  refine ⟨by decide, by decide, by decide, by decide⟩

/-! ## The string order used by the history endpoint -/

theorem jsLeChars_total : ∀ as bs : List Char,
    jsLeChars as bs = true ∨ jsLeChars bs as = true
  | [], _ => Or.inl rfl
  | _ :: _, [] => Or.inr rfl
  | a :: as, b :: bs => by
      by_cases h : a.toNat = b.toNat
      · rcases jsLeChars_total as bs with ih | ih
        · exact Or.inl (by simp [jsLeChars, h, ih])
        · exact Or.inr (by simp [jsLeChars, h.symm, ih])
      · rcases Nat.lt_or_ge a.toNat b.toNat with hlt | hge
        · exact Or.inl (by simp [jsLeChars, h, hlt])
        · have hgt : b.toNat < a.toNat :=
            Nat.lt_of_le_of_ne hge fun hh => h hh.symm
          have hne : b.toNat ≠ a.toNat := fun hh => h hh.symm
          exact Or.inr (by simp [jsLeChars, hne, hgt])

theorem jsLeChars_trans : ∀ as bs cs : List Char,
    jsLeChars as bs = true → jsLeChars bs cs = true → jsLeChars as cs = true
  | [], _, _, _, _ => rfl
  | _ :: _, [], _, h1, _ => by simp [jsLeChars] at h1
  | _ :: _, _ :: _, [], _, h2 => by simp [jsLeChars] at h2
  | a :: as, b :: bs, c :: cs, h1, h2 => by
      by_cases hab : a.toNat = b.toNat <;> by_cases hbc : b.toNat = c.toNat
      · have hac : a.toNat = c.toNat := hab.trans hbc
        simp only [jsLeChars, hab, if_pos rfl, if_true] at h1
        simp only [jsLeChars, hbc, if_pos rfl, if_true] at h2
        have htail := jsLeChars_trans as bs cs (by simpa [hab] using h1)
          (by simpa [hbc] using h2)
        simp [jsLeChars, hac, htail]
      · have hb : b.toNat < c.toNat := by
          have := h2
          simp only [jsLeChars, hbc, if_neg hbc] at this
          simpa using this
        have hac : a.toNat < c.toNat := hab ▸ hb
        simp [jsLeChars, Nat.ne_of_lt hac, hac]
      · have ha : a.toNat < b.toNat := by
          have := h1
          simp only [jsLeChars, if_neg hab] at this
          simpa using this
        have hac : a.toNat < c.toNat := hbc ▸ ha
        simp [jsLeChars, Nat.ne_of_lt hac, hac]
      · have ha : a.toNat < b.toNat := by
          have := h1
          simp only [jsLeChars, if_neg hab] at this
          simpa using this
        have hb : b.toNat < c.toNat := by
          have := h2
          simp only [jsLeChars, if_neg hbc] at this
          simpa using this
        have hac : a.toNat < c.toNat := ha.trans hb
        simp [jsLeChars, Nat.ne_of_lt hac, hac]

theorem jsLe_total (a b : String) : jsLe a b ∨ jsLe b a :=
  jsLeChars_total a.data b.data

theorem jsLe_trans (a b c : String) (h1 : jsLe a b) (h2 : jsLe b c) : jsLe a c :=
  jsLeChars_trans a.data b.data c.data h1 h2

/-! ## C7 — the history endpoint returns the 10 newest records -/

/-- Claim C7: the history handler returns the parsed records of the
recent file list, in that order; the recent file list holds
`min 10 n` of the `n` stored `.json` files, is ordered newest-first by
filename (descending in the sort order), consists only of `.json`
entries of the directory listing, and every selected filename is at
least as recent as every omitted one; with 12 stored records exactly 10
are returned. -/
theorem history_returns_recent_ten (read : String → String)
    (parse : String → ConversationRecord) (names : List String) :
    historyHandler read parse names =
      (recentJsonFiles names).map (fun f => parse (read f)) ∧
    (recentJsonFiles names).length = min 10 (names.filter endsWithJson).length ∧
    List.Pairwise (fun a b => jsLe b a) (recentJsonFiles names) ∧
    (∀ f ∈ recentJsonFiles names, f ∈ names ∧ endsWithJson f = true) ∧
    (∀ f ∈ recentJsonFiles names,
      ∀ g ∈ (((names.filter endsWithJson).insertionSort jsLe).reverse).drop 10,
        jsLe g f) ∧
    ((names.filter endsWithJson).length = 12 → (recentJsonFiles names).length = 10) := by
  haveI : IsTotal String jsLe := ⟨jsLe_total⟩
  haveI : IsTrans String jsLe := ⟨jsLe_trans⟩
  have hlen : (recentJsonFiles names).length = min 10 (names.filter endsWithJson).length := by
    simp [recentJsonFiles, List.length_take, List.length_reverse,
      List.length_insertionSort]
  have hsorted : List.Pairwise (fun a b => jsLe b a)
      (((names.filter endsWithJson).insertionSort jsLe).reverse) := by
    rw [List.pairwise_reverse]
    exact List.sorted_insertionSort jsLe (names.filter endsWithJson)
  refine ⟨rfl, hlen, ?_, ?_, ?_, ?_⟩
  · exact hsorted.sublist (List.take_sublist _ _)
  · intro f hf
    have hmem : f ∈ names.filter endsWithJson := by
      have h1 : f ∈ ((names.filter endsWithJson).insertionSort jsLe).reverse :=
        (List.take_sublist _ _).mem hf
      have h2 : f ∈ (names.filter endsWithJson).insertionSort jsLe :=
        List.mem_reverse.mp h1
      exact (List.perm_insertionSort jsLe (names.filter endsWithJson)).mem_iff.mp h2
    exact ⟨(List.mem_filter.mp hmem).1, (List.mem_filter.mp hmem).2⟩
  · intro f hf g hg
    have hsplit := hsorted
    rw [← List.take_append_drop 10
      (((names.filter endsWithJson).insertionSort jsLe).reverse)] at hsplit
    exact (List.pairwise_append.mp hsplit).2.2 f hf g hg
  · intro h12
    rw [hlen, h12]
    decide

/-- Claim C7 witness: with the concrete twelve-record store (plus a
stray non-JSON file) exactly 10 records come back, and they are the ten
largest filenames in descending order. -/
theorem history_returns_recent_ten_witness :
    (recentJsonFiles twelveLogFiles).length = 10 ∧
    recentJsonFiles twelveLogFiles =
      ["session_12.json", "session_11.json", "session_10.json", "session_09.json",
       "session_08.json", "session_07.json", "session_06.json", "session_05.json",
       "session_04.json", "session_03.json"] := by
  refine ⟨?_, by decide⟩
  exact (history_returns_recent_ten (fun _ => "") (fun _ => ⟨"", "", "", "", "", [], "", ""⟩)
    twelveLogFiles).2.2.2.2.2 (by decide)

/-! ## Line-level analysis of the synthesized system prompt -/

theorem toString_nat (n : Nat) : toString n = Nat.repr n := rfl

theorem data_newline : ("\n" : String).data = ['\n'] := rfl

theorem data_lbrack : ("[" : String).data = ['['] := rfl

theorem data_rbrack_space : ("] " : String).data = [']', ' '] := rfl

theorem data_space_lparen : (" (" : String).data = [' ', '('] := rfl

theorem data_rparen : (")" : String).data = [')'] := rfl

theorem data_naiyo : ("内容: " : String).data = ['内', '容', ':', ' '] := rfl

theorem digitChar_ne_newline (n : Nat) : Nat.digitChar n ≠ '\n' := by
  rcases Nat.lt_or_ge n 16 with h16 | h16
  · interval_cases n <;> decide
  · have hstar : Nat.digitChar n = '*' := by
      unfold Nat.digitChar
      iterate 16 rw [if_neg (by omega)]
    rw [hstar]
    decide

theorem toDigitsCore_ne_newline (fuel : Nat) : ∀ (n : Nat) (ds : List Char),
    '\n' ∉ ds → '\n' ∉ Nat.toDigitsCore 10 fuel n ds := by
  induction fuel with
  | zero =>
      intro n ds h
      simpa [Nat.toDigitsCore] using h
  | succ fuel ih =>
      intro n ds h
      have hcons : '\n' ∉ Nat.digitChar (n % 10) :: ds := by
        intro hmem
        rcases List.mem_cons.mp hmem with hc | hc
        · exact digitChar_ne_newline _ hc.symm
        · exact h hc
      simp only [Nat.toDigitsCore]
      split
      · exact hcons
      · exact ih _ _ hcons

theorem repr_ne_newline (n : Nat) : '\n' ∉ (Nat.repr n).data := by
  show '\n' ∉ ((Nat.toDigits 10 n).asString).data
  have hdata : ((Nat.toDigits 10 n).asString).data = Nat.toDigits 10 n := rfl
  rw [hdata]
  unfold Nat.toDigits
  exact toDigitsCore_ne_newline _ _ _ (by simp)

theorem nl_ne_lbrack : ¬('\n' = '[') := by decide

theorem nl_ne_rbrack : ¬('\n' = ']') := by decide

theorem nl_ne_space : ¬('\n' = ' ') := by decide

theorem nl_ne_lparen : ¬('\n' = '(') := by decide

theorem nl_ne_rparen : ¬('\n' = ')') := by decide

theorem nl_ne_nai : ¬('\n' = '内') := by decide

theorem nl_ne_you : ¬('\n' = '容') := by decide

theorem nl_ne_colon : ¬('\n' = ':') := by decide

theorem newline_not_mem_citationLineChars (i : Nat) (d : ReferenceDoc)
    (h1 : '\n' ∉ d.title.data) (h2 : '\n' ∉ d.url.data) :
    '\n' ∉ citationLineChars i d := by
  intro hmem
  simp [citationLineChars, citationLine, String.data_append, toString_nat,
    data_lbrack, data_rbrack_space, data_space_lparen, data_rparen, h1, h2,
    repr_ne_newline, nl_ne_lbrack, nl_ne_rbrack, nl_ne_space, nl_ne_lparen,
    nl_ne_rparen] at hmem

theorem newline_not_mem_contentLineChars (c : String) (h : '\n' ∉ c.data) :
    '\n' ∉ contentLineChars c := by
  intro hmem
  simp [contentLineChars, contentLine, String.data_append, data_naiyo, h,
    nl_ne_nai, nl_ne_you, nl_ne_colon, nl_ne_space] at hmem

theorem splitLines_ne_nil : ∀ cs : List Char, splitLines cs ≠ []
  | [] => by simp [splitLines]
  | c :: cs => by
      by_cases h : c = '\n'
      · simp [splitLines, h]
      · simp only [splitLines, if_neg h]
        cases hs : splitLines cs with
        | nil => simp
        | cons l ls => simp

theorem splitLines_newline_cons (ys : List Char) :
    splitLines ('\n' :: ys) = [] :: splitLines ys := by
  simp [splitLines]

theorem splitLines_append (xs ys : List Char) (h : '\n' ∉ xs) :
    splitLines (xs ++ ys) =
      (xs ++ (splitLines ys).headD []) :: (splitLines ys).tail := by
  induction xs with
  | nil =>
      simp only [List.nil_append]
      cases hs : splitLines ys with
      | nil => exact absurd hs (splitLines_ne_nil ys)
      | cons l ls => simp [hs]
  | cons c cs ih =>
      have hc : c ≠ '\n' := fun hh => h (hh ▸ List.mem_cons_self c cs)
      have h' : '\n' ∉ cs := fun hh => h (List.mem_cons_of_mem c hh)
      simp only [List.cons_append, splitLines, if_neg hc, List.append_eq]
      rw [ih h']

theorem splitLines_append_newline (xs ys : List Char) (h : '\n' ∉ xs) :
    splitLines (xs ++ '\n' :: ys) = xs :: splitLines ys := by
  rw [splitLines_append xs ('\n' :: ys) h, splitLines_newline_cons]
  simp

theorem splitLines_no_newline (xs : List Char) (h : '\n' ∉ xs) :
    splitLines xs = [xs] := by
  have hx := splitLines_append xs [] h
  simpa [splitLines] using hx

theorem citLines_cons_nil (i : Nat) (refs : List ReferenceDoc) :
    ∃ t, citLines i refs = [] :: t := by
  cases refs with
  | nil => exact ⟨[], rfl⟩
  | cons d ds =>
      cases hc : d.content with
      | none =>
          exact ⟨citationLineChars i d :: (citLines (i + 1) ds).tail,
            by simp [citLines, hc]⟩
      | some c =>
          exact ⟨citationLineChars i d :: contentLineChars c :: citLines (i + 1) ds,
            by simp [citLines, hc]⟩

theorem citationBlock_data_none (i : Nat) (d : ReferenceDoc) (h : d.content = none) :
    (citationBlock i d).data = '\n' :: citationLineChars i d := by
  simp [citationBlock, h, String.append_empty, String.data_append, data_newline,
    citationLineChars]

theorem citationBlock_data_some (i : Nat) (d : ReferenceDoc) (c : String)
    (h : d.content = some c) :
    (citationBlock i d).data =
      '\n' :: (citationLineChars i d ++ '\n' :: (contentLineChars c ++ ['\n'])) := by
  simp [citationBlock, h, String.data_append, data_newline, citationLineChars,
    contentLineChars, List.append_assoc]

theorem citations_data_cons (i : Nat) (d : ReferenceDoc) (ds : List ReferenceDoc) :
    (citations i (d :: ds)).data =
      (citationBlock i d).data ++ (citations (i + 1) ds).data := by
  simp [citations, String.data_append]

theorem splitLines_citations : ∀ (refs : List ReferenceDoc) (i : Nat) (rest : List Char),
    (∀ d ∈ refs, plainDoc d) →
    splitLines ((citations i refs).data ++ '\n' :: rest) =
      citLines i refs ++ splitLines rest := by
  intro refs
  induction refs with
  | nil =>
      intro i rest h
      simp [citations, citLines, splitLines_newline_cons]
  | cons d ds ih =>
      intro i rest h
      have hd : plainDoc d := h d (List.mem_cons_self d ds)
      have hds : ∀ x ∈ ds, plainDoc x := fun x hx => h x (List.mem_cons_of_mem d hx)
      have hclc : '\n' ∉ citationLineChars i d :=
        newline_not_mem_citationLineChars i d hd.1 hd.2.1
      obtain ⟨t, ht⟩ := citLines_cons_nil (i + 1) ds
      cases hc : d.content with
      | none =>
          rw [citations_data_cons, citationBlock_data_none i d hc]
          simp only [List.cons_append, List.append_assoc, List.nil_append]
          rw [splitLines_newline_cons, splitLines_append _ _ hclc,
            ih (i + 1) rest hds, ht]
          simp [citLines, hc, ht]
      | some c =>
          have hcnt : '\n' ∉ contentLineChars c :=
            newline_not_mem_contentLineChars c (hd.2.2 c hc)
          rw [citations_data_cons, citationBlock_data_some i d c hc]
          simp only [List.cons_append, List.append_assoc, List.singleton_append,
            List.nil_append]
          rw [splitLines_newline_cons, splitLines_append_newline _ _ hclc,
            splitLines_append_newline _ _ hcnt, ih (i + 1) rest hds]
          simp [citLines, hc]

theorem startsWithBracket_citationLineChars (i : Nat) (d : ReferenceDoc) :
    startsWithBracket (citationLineChars i d) = true := by
  simp only [citationLineChars, citationLine, String.data_append, data_lbrack,
    List.cons_append, List.append_assoc]
  rfl

theorem startsWithBracket_contentLineChars (c : String) :
    startsWithBracket (contentLineChars c) = false := by
  simp only [contentLineChars, contentLine, String.data_append, data_naiyo,
    List.cons_append]
  rfl

theorem swb_nil : startsWithBracket [] = false := rfl

theorem filter_citLines : ∀ (refs : List ReferenceDoc) (i : Nat),
    (citLines i refs).filter startsWithBracket =
      (List.enumFrom i refs).map fun p => citationLineChars p.1 p.2 := by
  intro refs
  induction refs with
  | nil => intro i; simp [citLines, List.filter_cons, swb_nil]
  | cons d ds ih =>
      intro i
      obtain ⟨t, ht⟩ := citLines_cons_nil (i + 1) ds
      have hfiltert : t.filter startsWithBracket =
          (List.enumFrom (i + 1) ds).map fun p => citationLineChars p.1 p.2 := by
        have hx := ih (i + 1)
        rw [ht] at hx
        simpa [List.filter_cons, swb_nil] using hx
      cases hc : d.content with
      | none =>
          simp [citLines, hc, ht, List.tail_cons, List.filter_cons, swb_nil,
            startsWithBracket_citationLineChars, hfiltert, List.enumFrom_cons]
      | some c =>
          simp [citLines, hc, List.filter_cons, swb_nil,
            startsWithBracket_citationLineChars, startsWithBracket_contentLineChars,
            ih (i + 1), List.enumFrom_cons]

theorem appendCitations_eq : ∀ (docs : List ReferenceDoc) (i : Nat) (acc : String),
    appendCitations i docs acc = acc ++ citations i docs := by
  intro docs
  induction docs with
  | nil => intro i acc; simp [appendCitations, citations, String.append_empty]
  | cons d ds ih =>
      intro i acc
      simp [appendCitations, citations, ih, String.append_assoc]

theorem generateSystemPrompt_nonempty (refs : List ReferenceDoc) (h : refs ≠ []) :
    generateSystemPrompt refs =
      basePrompt ++ referencesHeader ++ citations 0 refs ++ referencesFooter := by
  have hl : 0 < refs.length := List.length_pos.mpr h
  simp [generateSystemPrompt, hl, appendCitations_eq, String.append_assoc]

theorem basePrompt_data : basePrompt.data = baseLine1 ++ '\n' :: baseLine2 := by decide

theorem referencesHeader_data :
    referencesHeader.data = '\n' :: '\n' :: (headerLineChars ++ ['\n']) := by decide

theorem referencesFooter_data : referencesFooter.data = '\n' :: footerLineChars := by
  decide

theorem newline_not_mem_baseLine1 : '\n' ∉ baseLine1 := by decide

theorem newline_not_mem_baseLine2 : '\n' ∉ baseLine2 := by decide

theorem newline_not_mem_headerLineChars : '\n' ∉ headerLineChars := by decide

theorem newline_not_mem_footerLineChars : '\n' ∉ footerLineChars := by decide

theorem swb_baseLine1 : startsWithBracket baseLine1 = false := by decide

theorem swb_baseLine2 : startsWithBracket baseLine2 = false := by decide

theorem swb_headerLineChars : startsWithBracket headerLineChars = false := by decide

theorem swb_footerLineChars : startsWithBracket footerLineChars = false := by decide

theorem filter_basePrompt :
    (splitLines basePrompt.data).filter startsWithBracket = [] := by decide

theorem splitLines_prompt (refs : List ReferenceDoc) (h : ∀ d ∈ refs, plainDoc d)
    (hne : refs ≠ []) :
    splitLines (generateSystemPrompt refs).data =
      baseLine1 :: baseLine2 :: [] :: headerLineChars ::
        (citLines 0 refs ++ [footerLineChars]) := by
  rw [generateSystemPrompt_nonempty refs hne]
  simp only [String.data_append, basePrompt_data, referencesHeader_data,
    referencesFooter_data, List.append_assoc, List.cons_append, List.singleton_append,
    List.nil_append]
  rw [splitLines_append_newline _ _ newline_not_mem_baseLine1,
    splitLines_append_newline _ _ newline_not_mem_baseLine2,
    splitLines_newline_cons,
    splitLines_append_newline _ _ newline_not_mem_headerLineChars,
    splitLines_citations refs 0 footerLineChars h,
    splitLines_no_newline _ newline_not_mem_footerLineChars]

/-! ## C3 — citation structure of the synthesized system message -/

/-- Claim C3 (amended): with an empty reference list the synthesized
system message is the bare instruction text, which contains no citation
line; with a non-empty list (of documents whose fields embed no
newline) the lines of the message starting with a bracket are exactly
one citation line per document, in input order, 1-indexed, each
carrying the document's index, title and URL together on that one line;
and per document the citation block contributes a citation line
followed — when content is present — by the content on its own
following line. -/
theorem system_prompt_citation_lines (refs : List ReferenceDoc)
    (h : ∀ d ∈ refs, plainDoc d) :
    (refs = [] → generateSystemPrompt refs = basePrompt) ∧
    (splitLines basePrompt.data).filter startsWithBracket = [] ∧
    (refs ≠ [] →
      (splitLines (generateSystemPrompt refs).data).filter startsWithBracket =
        refs.enum.map fun p => citationLineChars p.1 p.2) ∧
    (∀ (i : Nat) (d : ReferenceDoc), d ∈ refs →
      splitLines (citationBlock i d).data =
        match d.content with
        | none => [[], citationLineChars i d]
        | some c => [[], citationLineChars i d, contentLineChars c, []]) := by
  refine ⟨?_, filter_basePrompt, ?_, ?_⟩
  · intro he
    subst he
    simp [generateSystemPrompt]
  · intro hne
    rw [splitLines_prompt refs h hne]
    simp only [List.filter_cons, swb_baseLine1, swb_baseLine2, swb_nil,
      swb_headerLineChars, List.filter_append, filter_citLines, swb_footerLineChars,
      Bool.false_eq_true, if_false]
    simp [List.filter_cons, swb_footerLineChars]
    rfl
  · intro i d hd
    have hpd := h d hd
    have hclc := newline_not_mem_citationLineChars i d hpd.1 hpd.2.1
    cases hc : d.content with
    | none =>
        rw [citationBlock_data_none i d hc, splitLines_newline_cons,
          splitLines_no_newline _ hclc]
    | some c =>
        have hcnt : '\n' ∉ contentLineChars c :=
          newline_not_mem_contentLineChars c (hpd.2.2 c hc)
        rw [citationBlock_data_some i d c hc, splitLines_newline_cons,
          splitLines_append_newline _ _ hclc,
          splitLines_append_newline _ _ hcnt]
        simp [splitLines]

/-- Claim C3 witness: two concrete documents, the first with content;
the bracket lines of the synthesized message are exactly the two
1-indexed citation lines in input order. -/
theorem system_prompt_citation_lines_witness :
    (splitLines (generateSystemPrompt
        [⟨"T", "U", some "C"⟩, ⟨"V", "W", none⟩]).data).filter startsWithBracket =
      ["[1] T (U)".data, "[2] V (W)".data] := by
  have hplain : ∀ d ∈ ([⟨"T", "U", some "C"⟩, ⟨"V", "W", none⟩] : List ReferenceDoc),
      plainDoc d := by
    intro d hd
    rcases List.mem_cons.mp hd with he | hd2
    · subst he
      exact ⟨by decide, by decide, fun c hc => by cases hc; decide⟩
    · rcases List.mem_cons.mp hd2 with he | hd3
      · subst he
        exact ⟨by decide, by decide, fun c hc => by cases hc⟩
      · exact absurd hd3 (List.not_mem_nil d)
  have h := (system_prompt_citation_lines [⟨"T", "U", some "C"⟩, ⟨"V", "W", none⟩]
    hplain).2.2.1 (by decide)
  exact h.trans (by decide)

/-- Claim C3 counterexample: for the single content-less document
titled `T` with URL `U`, the title does not stand on a line of its own
anywhere in the synthesized message — index, title and URL share the
single citation line `[1] T (U)` — so the claim's "index, title, URL
... each on its own line" fails. -/
theorem citation_fields_share_one_line :
    "T".data ∉ splitLines (generateSystemPrompt [⟨"T", "U", none⟩]).data ∧
    "[1] T (U)".data ∈ splitLines (generateSystemPrompt [⟨"T", "U", none⟩]).data := by
  constructor
  · decide
  · decide

end VercelDemo
